import Mathlib

/-!
Verification of the page-tracking extension glue file `ptrack.c` (the
block-level incremental backup engine front end).  The definitions below are a
shallow embedding of the C source: Postgres-side helper routines that the file
merely calls (directory reading, `stat`, filename parsing, relation-path
construction) are passed in as explicit parameters, machine integers become
`Nat` (all the arithmetic in scope is comparisons, division and modulus of
unsigned 64/32-bit quantities that cannot overflow), and the set-returning
functions become pure functions from their inputs to the full list of rows
they emit over a complete scan.
-/

set_option autoImplicit false

namespace Ptrack

/-- Postgres page size in bytes (the `BLCKSZ` compile-time constant, default
build value). -/
def BLCKSZ : Nat := 8192

/-- Number of pages per relation segment file (the `RELSEG_SIZE` compile-time
constant, default build value: 1 GiB segments of 8 KiB pages). -/
def RELSEG_SIZE : Nat := 131072

/-- The invalid OID sentinel (`InvalidOid`). -/
def InvalidOid : Nat := 0

/-- OID of the global tablespace (`GLOBALTABLESPACE_OID`). -/
def GLOBALTABLESPACE_OID : Nat := 1664

/-- OID of the default tablespace (`DEFAULTTABLESPACE_OID`). -/
def DEFAULTTABLESPACE_OID : Nat := 1663

/-- The invalid LSN sentinel (`InvalidXLogRecPtr`), numerically zero. -/
def InvalidXLogRecPtr : Nat := 0

/-- Fork number of the main fork (`MAIN_FORKNUM`). -/
def MAIN_FORKNUM : Nat := 0

/-- A relation file node: tablespace, database and relation OIDs
(`RelFileNode`). -/
structure RelFileNode where
  spcNode : Nat
  dbNode : Nat
  relNode : Nat
deriving DecidableEq, Repr

/-- Global identity of one block, as stored in `ctx->bid`: relation file node,
fork number and block number (the `PtBlockId` of the scan context). -/
structure BlockId where
  relnode : RelFileNode
  forknum : Nat
  blocknum : Nat
deriving DecidableEq, Repr

/-- Modelled from the spec: the slot function `BID_HASH_FUNC` lives in
`engine.h`, which is not among the sources under review.  The spec only
requires a deterministic, well-distributing pure function from a block's
identity to a slot index, so the embedding passes the hash as an explicit
parameter of this type. -/
abbrev BidHashFn := BlockId → Nat

/-- Modelled from the spec: the shared map header `PtrackMap` is declared in
`engine.h`/`ptrack.h`, which are not among the sources under review.  The spec
describes it as a fixed array of atomic LSN slots plus metadata including the
`initLsn` of the current epoch.  Atomic 64-bit slot reads are total, so the
slot array is embedded as a total function from slot index to LSN. -/
structure PtrackMap where
  init_lsn : Nat
  entries : Nat → Nat

/-- One element of the query's file list (`PtrackFileList_i` from `ptrack.h`,
restricted to the fields `ptrack.c` uses). -/
structure PtrackFileList_i where
  relnode : RelFileNode
  forknum : Nat
  segno : Nat
  path : String
deriving DecidableEq, Repr

/-- The scan-context fields that `ptrack_filelist_getnext` fills in on success:
the relative path reported to the caller, the starting block identity, and
`ctx->relsize`. -/
structure PtScanCtxInfo where
  relpath : String
  bid : BlockId
  relsize : Nat
deriving DecidableEq, Repr

/-- The path used for both `stat` and the emitted row: `pfl->path` with the
segment number appended after a dot when `segno > 0` (the `psprintf` calls in
`ptrack_filelist_getnext`; the `DataDir` prefix used only for `stat` is folded
into the stat oracle). -/
def ptrack_fullpath (pfl : PtrackFileList_i) : String :=
  if pfl.segno > 0 then pfl.path ++ "." ++ toString pfl.segno else pfl.path

/-- Body of the block loop of `ptrack_get_pagemapset`, unrolled: starting at
block `blocknum`, run `count` iterations.  Each iteration reads the slot
`ptrack_map->entries[BID_HASH_FUNC(ctx->bid)]` and, when the read LSN is `>=
ctx->lsn`, calls `datapagemap_add(&pagemap, blocknum % RELSEG_SIZE)`.  The
first component collects the block numbers consulted, the second the bit
positions added to the bitmap, in order. -/
def scanSegmentAux (entries : Nat → Nat) (h : BidHashFn) (lsn : Nat)
    (rn : RelFileNode) (forknum : Nat) : Nat → Nat → List Nat × List Nat
  | _, 0 => ([], [])
  | blocknum, count + 1 =>
    let rest := scanSegmentAux entries h lsn rn forknum (blocknum + 1) count
    (blocknum :: rest.1,
      (if lsn ≤ entries (h ⟨rn, forknum, blocknum⟩) then [blocknum % RELSEG_SIZE] else [])
        ++ rest.2)

/-- The complete scan of one file by the loop of `ptrack_get_pagemapset`: the
loop guard is `ctx->bid.blocknum > ctx->relsize`, so blocks `start` through
`relsize` inclusive are consulted, i.e. `relsize + 1 - start` iterations. -/
def scanSegment (entries : Nat → Nat) (h : BidHashFn) (lsn : Nat)
    (rn : RelFileNode) (forknum : Nat) (start relsize : Nat) : List Nat × List Nat :=
  scanSegmentAux entries h lsn rn forknum start (relsize + 1 - start)

/-- Embedding of `ptrack_filelist_getnext`.  The C routine pops the head of
`ctx->filelist`, builds the full path, and `stat`s it; on `stat` failure it
logs a warning and recurses on the remaining list ("But try the next one").
On success it fills the scan fields: for `segno > 0` the starting block is
`segno * RELSEG_SIZE` and `relsize = segno * RELSEG_SIZE + st_size / BLCKSZ`,
otherwise the start is block 0 and `relsize = st_size / BLCKSZ`.  The oracle
`statOf` maps a `DataDir`-relative path to `some st_size`, or `none` when the
`stat` call fails; the returned list is the filelist left in the context
(`(none, [])` models the `return -1` exhaustion case, which in C is reached
only once the list has been emptied). -/
def ptrack_filelist_getnext (statOf : String → Option Nat) :
    List PtrackFileList_i → Option PtScanCtxInfo × List PtrackFileList_i
  | [] => (none, [])
  | pfl :: rest =>
    match statOf (ptrack_fullpath pfl) with
    | none => ptrack_filelist_getnext statOf rest
    | some size =>
      if pfl.segno > 0 then
        (some ⟨ptrack_fullpath pfl,
               ⟨pfl.relnode, pfl.forknum, pfl.segno * RELSEG_SIZE⟩,
               pfl.segno * RELSEG_SIZE + size / BLCKSZ⟩, rest)
      else
        (some ⟨ptrack_fullpath pfl, ⟨pfl.relnode, pfl.forknum, 0⟩, size / BLCKSZ⟩, rest)

/-- The rows emitted by the set-returning loop of `ptrack_get_pagemapset` over
a whole query, once the filelist has been gathered.  Each set-returning call
takes the next file via `ptrack_filelist_getnext` (skipping entries whose
`stat` fails), scans its blocks, and emits the `(path, pagemap)` tuple exactly
when `datapagemap_add` allocated a bitmap (`pagemap.bitmap != NULL`), i.e.
when at least one bit was set; files whose bitmap stayed `NULL` are passed
over inside the loop without emitting.  The recursion is written structurally
on the filelist; `ptrack_query_rows_eq_getnext` below shows it agrees with the
`getnext`-shaped unfolding of the C control flow. -/
def ptrack_query_rows (statOf : String → Option Nat) (entries : Nat → Nat)
    (h : BidHashFn) (lsn : Nat) : List PtrackFileList_i → List (String × List Nat)
  | [] => []
  | pfl :: rest =>
    match statOf (ptrack_fullpath pfl) with
    | none => ptrack_query_rows statOf entries h lsn rest
    | some size =>
      let start := if pfl.segno > 0 then pfl.segno * RELSEG_SIZE else 0
      let relsize := if pfl.segno > 0 then pfl.segno * RELSEG_SIZE + size / BLCKSZ
                     else size / BLCKSZ
      let bits := (scanSegment entries h lsn pfl.relnode pfl.forknum start relsize).2
      (if bits = [] then [] else [(ptrack_fullpath pfl, bits)]) ++
        ptrack_query_rows statOf entries h lsn rest

/-- Numeric value of a digit list (most significant first), as accumulated by
`atoi`/`strtoul` over the digits they consume. -/
def digitsVal (cs : List Char) : Nat :=
  cs.foldl (fun a c => a * 10 + (c.toNat - 48)) 0

/-- Embedding of `atooid` (`strtoul(x, NULL, 10)` truncated to `Oid`): the
numeric value of the string's leading run of digits, 0 when it starts with a
non-digit.  (The `strtoul` extras — leading whitespace, signs, 32-bit
wraparound — are dropped: no caller in `ptrack.c` feeds it such strings.) -/
def atooid (s : String) : Nat :=
  digitsVal (s.data.takeWhile Char.isDigit)

/-- Embedding of the check `strspn(de->d_name + 1, "0123456789") ==
strlen(de->d_name + 1)` used for directory and symlink names: every character
AFTER THE FIRST is a decimal digit.  Note that the first character is never
inspected. -/
def digitTail (s : String) : Bool :=
  (s.data.drop 1).all Char.isDigit

/-- Embedding of the `segno` parse for main-fork files: `segpath =
strstr(de->d_name, ".")`, then `atoi(segpath + 1)` when a dot is present and 0
otherwise. -/
def parseSegno (name : String) : Nat :=
  match name.data.dropWhile (fun c => c ≠ '.') with
  | [] => 0
  | _ :: t => digitsVal (t.takeWhile Char.isDigit)

/-- The tablespace version directory name (`TABLESPACE_VERSION_DIRECTORY`), a
host compile-time constant; its exact spelling is irrelevant to the claims. -/
def TABLESPACE_VERSION_DIRECTORY : String := "PG_13_202007201"

/-- Host (PostgreSQL) routines that `ptrack_gather_filelist` calls, treated as
the external interface the spec excludes from the core: the temporary-name
test, the relation-filename parser (returning the number of leading OID
characters and the fork number on success), and relation-path construction
(`GetRelationPath dbOid spcOid relNode forknum`; the backend argument is
always `InvalidBackendId` and is dropped). -/
structure HostEnv where
  looks_like_temp_rel_name : String → Bool
  parse_filename_for_nontemp_relation : String → Option (Nat × Nat)
  GetRelationPath : Nat → Nat → Nat → Nat → String

/-- A node of the data directory tree as seen through `lstat`: a regular file
with its size, a directory with named children, a symbolic link whose target
directory has the given children (the code treats digit-named symlinks as
tablespace roots and reads through them), or an entry whose `lstat` fails. -/
inductive FSNode where
  | reg (size : Nat)
  | dir (children : List (String × FSNode))
  | link (children : List (String × FSNode))
  | bad

/-- The file-list element built for one regular file by the body of
`ptrack_gather_filelist`: parse the name, extract `segno` for the main fork,
take the relation OID from the leading `oidchars` characters, resolve the
tablespace (an unset `spcOid` means the default tablespace) and record the
relation path. -/
def ptrack_gather_regfile (env : HostEnv) (spcOid dbOid : Nat) (name : String) :
    List PtrackFileList_i :=
  if dbOid ≠ InvalidOid ∨ spcOid = GLOBALTABLESPACE_OID then
    match env.parse_filename_for_nontemp_relation name with
    | none => []
    | some (oidchars, forknum) =>
      let segno := if forknum = MAIN_FORKNUM then parseSegno name else 0
      let spcNode := if spcOid = InvalidOid then DEFAULTTABLESPACE_OID else spcOid
      let relNode := atooid ⟨name.data.take oidchars⟩
      [⟨⟨spcNode, dbOid, relNode⟩, forknum, segno,
        env.GetRelationPath dbOid spcNode relNode forknum⟩]
  else []

/-- Embedding of `ptrack_gather_filelist`, the recursive data-directory walk.
For every directory entry: skip `.`, `..` and temporary relation names; skip
entries whose `lstat` fails (after logging); add regular files via
`ptrack_gather_regfile` when inside a database directory or the global
tablespace; recurse into a subdirectory when its name after the first
character is all digits and no database is set yet (the name becomes the
database OID), or when it is the tablespace version directory and a
tablespace is set (clearing the database); recurse through a symlink whose
name after the first character is all digits, taking it as a tablespace root.
The C recursion is bounded by the directory depth; `fuel` is a bound on that
depth, consumed once per directory level, and every theorem below holds for
every fuel value. -/
def ptrack_gather_filelist (env : HostEnv) :
    Nat → Nat → Nat → List (String × FSNode) → List PtrackFileList_i
  | 0, _, _, _ => []
  | fuel + 1, spcOid, dbOid, children =>
    List.foldr
      (fun (entry : String × FSNode) acc =>
        (if entry.1 = "." ∨ entry.1 = ".." ∨ env.looks_like_temp_rel_name entry.1 = true then
          []
         else
          match entry.2 with
          | FSNode.bad => []
          | FSNode.reg _ => ptrack_gather_regfile env spcOid dbOid entry.1
          | FSNode.dir cs =>
            if digitTail entry.1 = true ∧ dbOid = InvalidOid then
              ptrack_gather_filelist env fuel spcOid (atooid entry.1) cs
            else if spcOid ≠ InvalidOid ∧ entry.1 = TABLESPACE_VERSION_DIRECTORY then
              ptrack_gather_filelist env fuel spcOid InvalidOid cs
            else []
          | FSNode.link cs =>
            if digitTail entry.1 = true then
              ptrack_gather_filelist env fuel (atooid entry.1) InvalidOid cs
            else []) ++ acc)
      [] children

/-- Embedding of `ptrack_init_lsn`: when the shared map exists, atomically
read and return its `init_lsn`; otherwise emit only a WARNING (which does not
abort the call) and return `InvalidXLogRecPtr`.  The `Except` result mirrors
`elog(ERROR, ...)`, which this function never reaches. -/
def ptrack_init_lsn (ptrack_map : Option PtrackMap) : Except String Nat :=
  match ptrack_map with
  | some m => Except.ok m.init_lsn
  | none => Except.ok InvalidXLogRecPtr

/-- Embedding of `ptrack_get_pagemapset` over a complete scan.  When
`ptrack_map == NULL` the function raises `elog(ERROR, "ptrack is disabled")`
before touching anything else.  Otherwise the first call gathers the file
list from the three roots `$DATADIR/global` (global tablespace, no database),
`$DATADIR/base` and `$DATADIR/pg_tblspc` (both with unset tablespace and
database OIDs), and the per-call loop then drains the list producing the
rows.  The three root listings stand for the directory trees the walk reads;
`statOf` is the `stat` oracle of `ptrack_filelist_getnext`. -/
def ptrack_get_pagemapset (ptrack_map : Option PtrackMap) (h : BidHashFn)
    (env : HostEnv) (fuel : Nat)
    (globalDir baseDir tblspcDir : List (String × FSNode))
    (statOf : String → Option Nat) (lsn : Nat) :
    Except String (List (String × List Nat)) :=
  match ptrack_map with
  | none => Except.error ("ptrack is disabled")
  | some m =>
    let filelist :=
      ptrack_gather_filelist env fuel GLOBALTABLESPACE_OID InvalidOid globalDir ++
        ptrack_gather_filelist env fuel InvalidOid InvalidOid baseDir ++
        ptrack_gather_filelist env fuel InvalidOid InvalidOid tblspcDir
    Except.ok (ptrack_query_rows statOf m.entries h lsn filelist)

/-- Boolean test that the first list is a prefix of the second (character
comparison as done by `strstr`/`strncmp`). -/
def listStartsWith : List Char → List Char → Bool
  | [], _ => true
  | _ :: _, [] => false
  | a :: as, b :: bs => a == b && listStartsWith as bs

/-- The C idiom `strstr(path, pre) == path`: `path` begins with `pre`. -/
def strStartsWith (s p : String) : Bool :=
  listStartsWith p.data s.data

/-- Pointer arithmetic `path + n` on a C string. -/
def strDrop (s : String) (n : Nat) : String :=
  ⟨s.data.drop n⟩

/-- The `strspn(p, "0123456789")` + `strncpy` idiom: the leading digit run of
a string, as copied into `oidbuf`. -/
def takeDigits (s : String) : String :=
  ⟨s.data.takeWhile Char.isDigit⟩

/-- Index of the first occurrence of `needle` in the remaining haystack, for
the embedding of `strstr`. -/
def strstrAux (needle : List Char) : List Char → Option Nat
  | [] => if needle = [] then some 0 else none
  | c :: rest =>
    if listStartsWith needle (c :: rest) = true then some 0
    else (strstrAux needle rest).map (· + 1)

/-- Embedding of `strstr(hay, needle)` returning the match offset. -/
def strstrPos (hay needle : String) : Option Nat :=
  strstrAux needle.data hay.data

/-- The OID parsing performed by `ptrack_copydir_hook` on the path passed to
`copydir()`: paths under `global/` target the global tablespace with no
database; under `base/` the default tablespace with the database OID read
from the digits following `base/`; under `pg_tblspc/` the tablespace OID read
from the digits following `pg_tblspc/` and the database OID read from the
digits after the tablespace version directory and its slash.  (When the
version directory does not occur in a `pg_tblspc/` path the C code
dereferences `strstr(...) = NULL + ...`, which is undefined; such paths are
never produced by `copydir` callers and the model returns `InvalidOid`
there.)  Any other path leaves both OIDs invalid. -/
def ptrack_copydir_parse (path : String) : Nat × Nat :=
  if strStartsWith path ("global/") = true then
    (GLOBALTABLESPACE_OID, InvalidOid)
  else if strStartsWith path ("base/") = true then
    (DEFAULTTABLESPACE_OID, atooid (takeDigits (strDrop path 5)))
  else if strStartsWith path ("pg_tblspc/") = true then
    (atooid (takeDigits (strDrop path 10)),
     match strstrPos path TABLESPACE_VERSION_DIRECTORY with
     | some i =>
       atooid (takeDigits (strDrop path (i + TABLESPACE_VERSION_DIRECTORY.length + 1)))
     | none => InvalidOid)
  else (InvalidOid, InvalidOid)

/-- A relation file node together with the backend field
(`RelFileNodeBackend`), forwarded opaquely by the write hooks. -/
structure RelFileNodeBackend where
  node : RelFileNode
  backend : Int
deriving DecidableEq, Repr

/-- Calls a hook makes into the rest of the system.  `markBlock`, `walkdir`
and `checkpoint` stand for the engine entry points `ptrack_mark_block`,
`ptrack_walkdir` and `ptrackCheckpoint` (their bodies live in `engine.c`,
outside the sources under review and outside these claims); the `prev*`
constructors record the chained call to a previously installed hook. -/
inductive HostCall where
  | markBlock (rnode : RelFileNodeBackend) (forknum : Nat) (blocknum : Nat)
  | walkdir (path : String) (spcOid : Nat) (dbOid : Nat)
  | checkpoint
  | prevCopydir (path : String)
  | prevMdwrite (rnode : RelFileNodeBackend) (forknum : Nat) (blocknum : Nat)
  | prevMdextend (rnode : RelFileNodeBackend) (forknum : Nat) (blocknum : Nat)
  | prevSync
deriving DecidableEq, Repr

/-- Embedding of `ptrack_copydir_hook`: parse the tablespace/database scope
from the copied path, call `ptrack_walkdir(path, spcOid, dbOid)`, then chain
to the previously installed `copydir` hook when one exists.  (The `PGPRO_EE`
compressed-tablespace branch is compiled out.) -/
def ptrack_copydir_hook (prevInstalled : Bool) (path : String) : List HostCall :=
  let oids := ptrack_copydir_parse path
  HostCall.walkdir path oids.1 oids.2 ::
    (if prevInstalled then [HostCall.prevCopydir path] else [])

/-- Embedding of `ptrack_mdwrite_hook`: mark exactly the written page, then
chain. -/
def ptrack_mdwrite_hook (prevInstalled : Bool) (rnode : RelFileNodeBackend)
    (forknum blocknum : Nat) : List HostCall :=
  HostCall.markBlock rnode forknum blocknum ::
    (if prevInstalled then [HostCall.prevMdwrite rnode forknum blocknum] else [])

/-- Embedding of `ptrack_mdextend_hook`: mark exactly the extended page, then
chain. -/
def ptrack_mdextend_hook (prevInstalled : Bool) (rnode : RelFileNodeBackend)
    (forknum blocknum : Nat) : List HostCall :=
  HostCall.markBlock rnode forknum blocknum ::
    (if prevInstalled then [HostCall.prevMdextend rnode forknum blocknum] else [])

/-- Embedding of `ptrack_ProcessSyncRequests_hook`: flush via
`ptrackCheckpoint()`, then chain. -/
def ptrack_ProcessSyncRequests_hook (prevInstalled : Bool) : List HostCall :=
  HostCall.checkpoint :: (if prevInstalled then [HostCall.prevSync] else [])

/-- Whether a character list starts with a digit (used to mark where a digit
run ends). -/
def headDigit : List Char → Bool
  | [] => false
  | c :: _ => c.isDigit

/-- Slot contents of the C1 counterexample: the slot numbered `RELSEG_SIZE`
holds LSN 5, every other slot the never-marked sentinel 0. -/
def C1cexEntries : Nat → Nat := fun i => if i = RELSEG_SIZE then 5 else 0

/-- Hash of the C1 counterexample: a block's slot index is its block number
(any hash separating block 0 from block `RELSEG_SIZE` while the map holds
these LSNs exhibits the same behaviour). -/
def C1cexHash : BidHashFn := fun b => b.blocknum

/-- The specification text's "numerically-named" condition: a non-empty name
consisting solely of decimal digits. -/
def isNumericName (s : String) : Bool :=
  !s.data.isEmpty && s.data.all Char.isDigit

/-- Host environment of the C6 counterexample: nothing looks temporary, a
filename parses as a relation file exactly when it is a non-empty digit
string (all of it the relation OID, main fork), and a relation path is
rendered as db/rel. -/
def C6cexEnv : HostEnv where
  looks_like_temp_rel_name := fun _ => false
  parse_filename_for_nontemp_relation := fun s =>
    if isNumericName s = true then some (s.length, MAIN_FORKNUM) else none
  GetRelationPath := fun db _ rel _ => toString db ++ "/" ++ toString rel

/-- Base-directory listing of the C6 counterexample: one subdirectory named
`x1` — not numerically named — holding a directory `2` with a relation file
`3`. -/
def C6cexBase : List (String × FSNode) :=
  [("x1", FSNode.dir [("2", FSNode.dir [("3", FSNode.reg 8192)])])]

/-- The consulted blocks of `scanSegmentAux` are exactly the `count` block
numbers starting at `lo`. -/
theorem scanSegmentAux_mem_fst (entries : Nat → Nat) (h : BidHashFn) (lsn : Nat)
    (rn : RelFileNode) (forknum : Nat) :
    ∀ (count lo n : Nat),
      n ∈ (scanSegmentAux entries h lsn rn forknum lo count).1 ↔ lo ≤ n ∧ n < lo + count := by
  intro count
  induction count with
  | zero =>
    intro lo n
    simp only [scanSegmentAux, List.not_mem_nil, false_iff]
    omega
  | succ c ih =>
    intro lo n
    simp only [scanSegmentAux, List.mem_cons, ih (lo + 1) n]
    omega

/-- Characterization of the bits added by `scanSegmentAux`: a bit `o` is added
iff some consulted block has offset `o` modulo `RELSEG_SIZE` and its hashed
slot holds an LSN `≥ lsn`. -/
theorem scanSegmentAux_mem_snd (entries : Nat → Nat) (h : BidHashFn) (lsn : Nat)
    (rn : RelFileNode) (forknum : Nat) :
    ∀ (count lo o : Nat),
      o ∈ (scanSegmentAux entries h lsn rn forknum lo count).2 ↔
        ∃ m, lo ≤ m ∧ m < lo + count ∧ m % RELSEG_SIZE = o ∧
          lsn ≤ entries (h ⟨rn, forknum, m⟩) := by
  intro count
  induction count with
  | zero =>
    intro lo o
    simp only [scanSegmentAux, List.not_mem_nil, false_iff]
    rintro ⟨m, h1, h2, -, -⟩; omega
  | succ c ih =>
    intro lo o
    simp only [scanSegmentAux, List.mem_append, ih (lo + 1) o]
    constructor
    · rintro (hmem | ⟨m, h1, h2, h3, h4⟩)
      · by_cases hc : lsn ≤ entries (h ⟨rn, forknum, lo⟩)
        · refine ⟨lo, le_refl lo, by omega, ?_, hc⟩
          rw [if_pos hc] at hmem
          simp at hmem
          exact hmem.symm
        · rw [if_neg hc] at hmem
          simp at hmem
      · exact ⟨m, by omega, by omega, h3, h4⟩
    · rintro ⟨m, h1, h2, h3, h4⟩
      by_cases hm : m = lo
      · subst hm
        left
        rw [if_pos h4]
        simp [h3]
      · right
        exact ⟨m, by omega, by omega, h3, h4⟩

/-- Consulted-block characterization for a whole file scan: exactly the blocks
from `start` through `relsize` inclusive. -/
theorem scanSegment_mem_fst (entries : Nat → Nat) (h : BidHashFn) (lsn : Nat)
    (rn : RelFileNode) (forknum : Nat) (start relsize n : Nat) :
    n ∈ (scanSegment entries h lsn rn forknum start relsize).1 ↔
      start ≤ n ∧ n ≤ relsize := by
  rw [scanSegment, scanSegmentAux_mem_fst]
  omega

/-- Bit characterization for a whole file scan. -/
theorem scanSegment_mem_snd (entries : Nat → Nat) (h : BidHashFn) (lsn : Nat)
    (rn : RelFileNode) (forknum : Nat) (start relsize o : Nat) :
    o ∈ (scanSegment entries h lsn rn forknum start relsize).2 ↔
      ∃ m, start ≤ m ∧ m ≤ relsize ∧ m % RELSEG_SIZE = o ∧
        lsn ≤ entries (h ⟨rn, forknum, m⟩) := by
  rw [scanSegment, scanSegmentAux_mem_snd]
  constructor
  · rintro ⟨m, h1, h2, h3, h4⟩; exact ⟨m, h1, by omega, h3, h4⟩
  · rintro ⟨m, h1, h2, h3, h4⟩; exact ⟨m, h1, by omega, h3, h4⟩

/-- The uniform form of the start block and `relsize` computed by
`ptrack_filelist_getnext`: both `segno` branches produce start
`segno * RELSEG_SIZE` and relsize `segno * RELSEG_SIZE + size / BLCKSZ`. -/
theorem getnext_cons_ok (statOf : String → Option Nat) (pfl : PtrackFileList_i)
    (rest : List PtrackFileList_i) (size : Nat)
    (hstat : statOf (ptrack_fullpath pfl) = some size) :
    ptrack_filelist_getnext statOf (pfl :: rest) =
      (some ⟨ptrack_fullpath pfl,
             ⟨pfl.relnode, pfl.forknum, pfl.segno * RELSEG_SIZE⟩,
             pfl.segno * RELSEG_SIZE + size / BLCKSZ⟩, rest) := by
  simp only [ptrack_filelist_getnext, hstat]
  by_cases hs : pfl.segno > 0
  · rw [if_pos hs]
  · rw [if_neg hs]
    have h0 : pfl.segno = 0 := by omega
    simp [h0]

/-- Skipping equation: a head entry whose `stat` fails is dropped and the
iterator continues with the tail. -/
theorem getnext_skip (statOf : String → Option Nat) (pfl : PtrackFileList_i)
    (rest : List PtrackFileList_i)
    (hstat : statOf (ptrack_fullpath pfl) = none) :
    ptrack_filelist_getnext statOf (pfl :: rest) = ptrack_filelist_getnext statOf rest := by
  rw [ptrack_filelist_getnext, hstat]

/-- When the iterator reports exhaustion, it has consumed the whole list. -/
theorem getnext_none_nil (statOf : String → Option Nat) :
    ∀ l : List PtrackFileList_i,
      (ptrack_filelist_getnext statOf l).1 = none → (ptrack_filelist_getnext statOf l).2 = [] := by
  intro l
  induction l with
  | nil => intro _; rfl
  | cons pfl rest ih =>
    intro hnone
    cases hstat : statOf (ptrack_fullpath pfl) with
    | none =>
      rw [getnext_skip statOf pfl rest hstat] at hnone ⊢
      exact ih hnone
    | some size =>
      rw [getnext_cons_ok statOf pfl rest size hstat] at hnone
      simp at hnone

/-- When the iterator yields a file, the remaining list is strictly shorter
than the input list. -/
theorem getnext_some_length (statOf : String → Option Nat) :
    ∀ (l : List PtrackFileList_i) (info : PtScanCtxInfo),
      (ptrack_filelist_getnext statOf l).1 = some info →
      (ptrack_filelist_getnext statOf l).2.length < l.length := by
  intro l
  induction l with
  | nil => intro info hsome; simp [ptrack_filelist_getnext] at hsome
  | cons pfl rest ih =>
    intro info hsome
    cases hstat : statOf (ptrack_fullpath pfl) with
    | none =>
      rw [getnext_skip statOf pfl rest hstat] at hsome ⊢
      have := ih info hsome
      simp only [List.length_cons]
      omega
    | some size =>
      rw [getnext_cons_ok statOf pfl rest size hstat]
      simp

/-- The structural row stream coincides with the `getnext`-shaped control flow
of the C loop: take the next statable file, scan it, emit its row when the
bitmap is non-empty, and continue on the remaining list. -/
theorem ptrack_query_rows_eq_getnext (statOf : String → Option Nat)
    (entries : Nat → Nat) (h : BidHashFn) (lsn : Nat) :
    ∀ files : List PtrackFileList_i,
      ptrack_query_rows statOf entries h lsn files =
        match ptrack_filelist_getnext statOf files with
        | (none, _) => []
        | (some info, rest) =>
          (if (scanSegment entries h lsn info.bid.relnode info.bid.forknum
                info.bid.blocknum info.relsize).2 = [] then []
           else [(info.relpath,
                  (scanSegment entries h lsn info.bid.relnode info.bid.forknum
                    info.bid.blocknum info.relsize).2)]) ++
            ptrack_query_rows statOf entries h lsn rest := by
  intro files
  induction files with
  | nil => rfl
  | cons pfl rest ih =>
    cases hstat : statOf (ptrack_fullpath pfl) with
    | none =>
      rw [ptrack_query_rows, hstat, getnext_skip statOf pfl rest hstat, ih]
    | some size =>
      rw [ptrack_query_rows, hstat, getnext_cons_ok statOf pfl rest size hstat]
      by_cases hs : pfl.segno > 0
      · simp only [if_pos hs]
      · have h0 : pfl.segno = 0 := by omega
        simp [h0]

/-- Every emitted row carries a non-empty bitmap. -/
theorem query_rows_mem_ne_nil (statOf : String → Option Nat) (entries : Nat → Nat)
    (h : BidHashFn) (lsn : Nat) :
    ∀ (files : List PtrackFileList_i) (p : String) (bm : List Nat),
      (p, bm) ∈ ptrack_query_rows statOf entries h lsn files → bm ≠ [] := by
  intro files
  induction files with
  | nil => intro p bm hmem; simp [ptrack_query_rows] at hmem
  | cons pfl rest ih =>
    intro p bm hmem
    rw [ptrack_query_rows] at hmem
    cases hstat : statOf (ptrack_fullpath pfl) with
    | none =>
      rw [hstat] at hmem
      exact ih p bm hmem
    | some size =>
      rw [hstat] at hmem
      simp only [List.mem_append] at hmem
      rcases hmem with hhead | htail
      · by_cases hb :
          (scanSegment entries h lsn pfl.relnode pfl.forknum
            (if pfl.segno > 0 then pfl.segno * RELSEG_SIZE else 0)
            (if pfl.segno > 0 then pfl.segno * RELSEG_SIZE + size / BLCKSZ
             else size / BLCKSZ)).2 = []
        · rw [if_pos hb] at hhead
          simp at hhead
        · rw [if_neg hb] at hhead
          simp only [List.mem_singleton, Prod.mk.injEq] at hhead
          rw [← hhead.2] at hb
          exact hb
      · exact ih p bm htail

/-- A complete query returns at most one row per file-list element. -/
theorem query_rows_length_le (statOf : String → Option Nat) (entries : Nat → Nat)
    (h : BidHashFn) (lsn : Nat) :
    ∀ files : List PtrackFileList_i,
      (ptrack_query_rows statOf entries h lsn files).length ≤ files.length := by
  intro files
  induction files with
  | nil => simp [ptrack_query_rows]
  | cons pfl rest ih =>
    rw [ptrack_query_rows]
    cases hstat : statOf (ptrack_fullpath pfl) with
    | none => simp only [List.length_cons]; omega
    | some size =>
      simp only [List.length_append, List.length_cons]
      by_cases hb :
        (scanSegment entries h lsn pfl.relnode pfl.forknum
          (if pfl.segno > 0 then pfl.segno * RELSEG_SIZE else 0)
          (if pfl.segno > 0 then pfl.segno * RELSEG_SIZE + size / BLCKSZ
           else size / BLCKSZ)).2 = []
      · rw [if_pos hb]; simp only [List.length_nil]; omega
      · rw [if_neg hb]; simp only [List.length_singleton]; omega

/-- With threshold 0 (`InvalidXLogRecPtr`) the comparison `update_lsn >= lsn`
holds for every unsigned slot value, so every consulted block's bit is added:
the bitmap is exactly the consulted blocks mapped through `% RELSEG_SIZE`. -/
theorem scanSegmentAux_snd_zero_lsn (entries : Nat → Nat) (h : BidHashFn)
    (rn : RelFileNode) (forknum : Nat) :
    ∀ (count lo : Nat),
      (scanSegmentAux entries h 0 rn forknum lo count).2 =
        (scanSegmentAux entries h 0 rn forknum lo count).1.map
          (fun n => n % RELSEG_SIZE) := by
  intro count
  induction count with
  | zero => intro lo; rfl
  | succ c ih =>
    intro lo
    simp only [scanSegmentAux, List.map_cons, ih (lo + 1)]
    rw [if_pos (Nat.zero_le _)]
    rfl

/-- The scan of a file obtained from `ptrack_filelist_getnext` always consults
at least its starting block, so with threshold 0 the bitmap is non-empty and
the file's row is emitted: every file-list element whose `stat` succeeds
appears among the paths of the emitted rows. -/
theorem query_rows_zero_lsn_mem (statOf : String → Option Nat) (entries : Nat → Nat)
    (h : BidHashFn) :
    ∀ (files : List PtrackFileList_i) (pfl : PtrackFileList_i) (size : Nat),
      pfl ∈ files → statOf (ptrack_fullpath pfl) = some size →
      ptrack_fullpath pfl ∈ (ptrack_query_rows statOf entries h 0 files).map Prod.fst := by
  intro files
  induction files with
  | nil => intro pfl size hmem; simp at hmem
  | cons f rest ih =>
    intro pfl size hmem hstat
    rw [List.mem_cons] at hmem
    rcases hmem with heq | htail
    · subst heq
      have hne :
          (scanSegment entries h 0 pfl.relnode pfl.forknum
            (if pfl.segno > 0 then pfl.segno * RELSEG_SIZE else 0)
            (if pfl.segno > 0 then pfl.segno * RELSEG_SIZE + size / BLCKSZ
             else size / BLCKSZ)).2 ≠ [] := by
        intro hempty
        have hstart :
            (if pfl.segno > 0 then pfl.segno * RELSEG_SIZE else 0) % RELSEG_SIZE ∈
              (scanSegment entries h 0 pfl.relnode pfl.forknum
                (if pfl.segno > 0 then pfl.segno * RELSEG_SIZE else 0)
                (if pfl.segno > 0 then pfl.segno * RELSEG_SIZE + size / BLCKSZ
                 else size / BLCKSZ)).2 := by
          rw [scanSegment_mem_snd]
          refine ⟨if pfl.segno > 0 then pfl.segno * RELSEG_SIZE else 0,
            le_refl _, ?_, rfl, Nat.zero_le _⟩
          by_cases hs : pfl.segno > 0
          · simp only [if_pos hs]; exact Nat.le_add_right _ _
          · simp only [if_neg hs]; exact Nat.zero_le _
        rw [hempty] at hstart
        simp at hstart
      simp only [ptrack_query_rows, hstat]
      rw [if_neg hne]
      simp
    · have hmem2 := ih pfl size htail hstat
      cases hstat2 : statOf (ptrack_fullpath f) with
      | none => simpa only [ptrack_query_rows, hstat2] using hmem2
      | some size2 =>
        simp only [ptrack_query_rows, hstat2, List.map_append, List.mem_append]
        right
        exact hmem2

/-- Unfolding of the walk over one directory entry followed by the rest of the
listing. -/
theorem ptrack_gather_filelist_cons (env : HostEnv) (fuel spcOid dbOid : Nat)
    (name : String) (node : FSNode) (rest : List (String × FSNode)) :
    ptrack_gather_filelist env (fuel + 1) spcOid dbOid ((name, node) :: rest) =
      (if name = "." ∨ name = ".." ∨ env.looks_like_temp_rel_name name = true then
        []
       else
        match node with
        | FSNode.bad => []
        | FSNode.reg _ => ptrack_gather_regfile env spcOid dbOid name
        | FSNode.dir cs =>
          if digitTail name = true ∧ dbOid = InvalidOid then
            ptrack_gather_filelist env fuel spcOid (atooid name) cs
          else if spcOid ≠ InvalidOid ∧ name = TABLESPACE_VERSION_DIRECTORY then
            ptrack_gather_filelist env fuel spcOid InvalidOid cs
          else []
        | FSNode.link cs =>
          if digitTail name = true then
            ptrack_gather_filelist env fuel (atooid name) InvalidOid cs
          else []) ++
        ptrack_gather_filelist env (fuel + 1) spcOid dbOid rest := by
  rfl

/-- Shape of any file-list element built for a regular file: its database OID
is the walk's current database, the guard `dbOid != InvalidOid || spcOid ==
GLOBALTABLESPACE_OID` held, and its tablespace OID is the current tablespace
with `InvalidOid` resolved to the default tablespace. -/
theorem ptrack_gather_regfile_mem (env : HostEnv) (spcOid dbOid : Nat)
    (name : String) (x : PtrackFileList_i) :
    x ∈ ptrack_gather_regfile env spcOid dbOid name →
      x.relnode.dbNode = dbOid ∧ (dbOid ≠ InvalidOid ∨ spcOid = GLOBALTABLESPACE_OID) ∧
      x.relnode.spcNode = (if spcOid = InvalidOid then DEFAULTTABLESPACE_OID else spcOid) := by
  intro hmem
  rw [ptrack_gather_regfile] at hmem
  by_cases hguard : dbOid ≠ InvalidOid ∨ spcOid = GLOBALTABLESPACE_OID
  · rw [if_pos hguard] at hmem
    cases hp : env.parse_filename_for_nontemp_relation name with
    | none => rw [hp] at hmem; simp at hmem
    | some pr =>
      rw [hp] at hmem
      obtain ⟨oc, fn⟩ := pr
      simp only [List.mem_singleton] at hmem
      subst hmem
      exact ⟨rfl, hguard, rfl⟩
  · rw [if_neg hguard] at hmem
    simp at hmem

/-- Every file the walk gathers was added either inside a database directory
(non-invalid database OID) or in the global tablespace, for any starting
scope and any depth bound. -/
theorem ptrack_gather_filelist_inv (env : HostEnv) :
    ∀ (fuel spcOid dbOid : Nat) (children : List (String × FSNode))
      (x : PtrackFileList_i),
      x ∈ ptrack_gather_filelist env fuel spcOid dbOid children →
      x.relnode.dbNode ≠ InvalidOid ∨ x.relnode.spcNode = GLOBALTABLESPACE_OID := by
  intro fuel
  induction fuel with
  | zero =>
    intro spc db cs x hmem
    simp [ptrack_gather_filelist] at hmem
  | succ fuel ih =>
    intro spc db cs
    induction cs with
    | nil => intro x hmem; simp [ptrack_gather_filelist] at hmem
    | cons entry rest ihl =>
      intro x hmem
      obtain ⟨name, node⟩ := entry
      rw [ptrack_gather_filelist_cons, List.mem_append] at hmem
      rcases hmem with hhead | htail
      · by_cases hskip : name = "." ∨ name = ".." ∨ env.looks_like_temp_rel_name name = true
        · rw [if_pos hskip] at hhead; simp at hhead
        · rw [if_neg hskip] at hhead
          cases node with
          | bad => simp at hhead
          | reg sz =>
            have hr := ptrack_gather_regfile_mem env spc db name x hhead
            rcases hr.2.1 with hdb | hspc
            · left; rw [hr.1]; exact hdb
            · right
              rw [hr.2.2, hspc]
              rw [if_neg (by decide)]
          | dir cs2 =>
            have hhead2 :
                x ∈ (if digitTail name = true ∧ db = InvalidOid then
                       ptrack_gather_filelist env fuel spc (atooid name) cs2
                     else if spc ≠ InvalidOid ∧ name = TABLESPACE_VERSION_DIRECTORY then
                       ptrack_gather_filelist env fuel spc InvalidOid cs2
                     else []) := hhead
            by_cases h1 : digitTail name = true ∧ db = InvalidOid
            · rw [if_pos h1] at hhead2
              exact ih spc (atooid name) cs2 x hhead2
            · rw [if_neg h1] at hhead2
              by_cases h2 : spc ≠ InvalidOid ∧ name = TABLESPACE_VERSION_DIRECTORY
              · rw [if_pos h2] at hhead2
                exact ih spc InvalidOid cs2 x hhead2
              · rw [if_neg h2] at hhead2; simp at hhead2
          | link cs2 =>
            have hhead2 :
                x ∈ (if digitTail name = true then
                       ptrack_gather_filelist env fuel (atooid name) InvalidOid cs2
                     else []) := hhead
            by_cases h1 : digitTail name = true
            · rw [if_pos h1] at hhead2
              exact ih (atooid name) InvalidOid cs2 x hhead2
            · rw [if_neg h1] at hhead2; simp at hhead2
      · exact ihl x htail

/-- A digit run followed by a non-digit (or nothing) is exactly what
`takeWhile Char.isDigit` extracts. -/
theorem takeWhile_digits_append (ds r : List Char)
    (hds : ∀ c ∈ ds, c.isDigit = true) (hr : headDigit r = false) :
    (ds ++ r).takeWhile Char.isDigit = ds := by
  induction ds with
  | nil =>
    simp only [List.nil_append]
    cases r with
    | nil => rfl
    | cons c t =>
      rw [List.takeWhile_cons]
      rw [headDigit] at hr
      rw [hr]
      simp
  | cons d ds ih =>
    rw [List.cons_append, List.takeWhile_cons, hds d (List.mem_cons_self d ds)]
    rw [ih (fun c hc => hds c (List.mem_cons_of_mem d hc))]
    simp

/-- Every list is a prefix of itself extended by anything. -/
theorem listStartsWith_append (xs ys : List Char) :
    listStartsWith xs (xs ++ ys) = true := by
  induction xs with
  | nil => rfl
  | cons a as ih =>
    rw [List.cons_append, listStartsWith, beq_self_eq_true, Bool.true_and]
    exact ih

/-- A search for a needle that matches at the start succeeds at offset 0. -/
theorem strstrAux_of_startsWith (needle hay : List Char)
    (h : listStartsWith needle hay = true) :
    strstrAux needle hay = some 0 := by
  cases hay with
  | nil =>
    cases needle with
    | nil => rfl
    | cons a as => simp [listStartsWith] at h
  | cons c rest => rw [strstrAux, if_pos h]

/-- Sliding a `strstr` search across a stretch that nowhere contains the
needle's first character shifts the match offset by the stretch's length. -/
theorem strstrAux_shift (hd : Char) (tl : List Char) :
    ∀ (pre suf : List Char), (∀ c ∈ pre, (hd == c) = false) →
      strstrAux (hd :: tl) (pre ++ suf) =
        (strstrAux (hd :: tl) suf).map (· + pre.length) := by
  intro pre
  induction pre with
  | nil =>
    intro suf _
    simp only [List.nil_append, List.length_nil]
    cases strstrAux (hd :: tl) suf with
    | none => rfl
    | some i => rfl
  | cons c pre ih =>
    intro suf hpre
    rw [List.cons_append, strstrAux]
    rw [if_neg ?hcond]
    case hcond =>
      rw [listStartsWith, hpre c (List.mem_cons_self c pre), Bool.false_and]
      simp
    rw [ih suf (fun x hx => hpre x (List.mem_cons_of_mem c hx))]
    cases strstrAux (hd :: tl) suf with
    | none => rfl
    | some i =>
      simp only [Option.map_some', Option.some_inj, List.length_cons]
      omega

/-- A digit character is never the uppercase letter opening the tablespace
version directory name. -/
theorem digit_ne_upper_p (c : Char) (hc : c.isDigit = true) :
    (('P' : Char) == c) = false := by
  by_cases h : c = 'P'
  · subst h; simp at hc
  · simp only [beq_eq_false_iff_ne, ne_eq]
    intro h2
    exact h h2.symm

/-- Parse result for a copied path under `global/`: global tablespace, no
database. -/
theorem copydir_parse_global (r : List Char) :
    ptrack_copydir_parse ⟨("global/").data ++ r⟩ = (GLOBALTABLESPACE_OID, InvalidOid) := by
  have hg : strStartsWith (⟨("global/").data ++ r⟩ : String) ("global/") = true :=
    listStartsWith_append _ _
  rw [ptrack_copydir_parse, if_pos hg]

/-- Parse result for a copied path under `base/`: default tablespace, and the
database OID is the numeric value of the digit run following `base/`. -/
theorem copydir_parse_base (ds r : List Char)
    (hds : ∀ c ∈ ds, c.isDigit = true) (hr : headDigit r = false) :
    ptrack_copydir_parse ⟨("base/").data ++ (ds ++ r)⟩ =
      (DEFAULTTABLESPACE_OID, digitsVal ds) := by
  have hg : strStartsWith (⟨("base/").data ++ (ds ++ r)⟩ : String) ("global/") = false := rfl
  have hb : strStartsWith (⟨("base/").data ++ (ds ++ r)⟩ : String) ("base/") = true := rfl
  rw [ptrack_copydir_parse, if_neg (by rw [hg]; exact Bool.false_ne_true), if_pos hb]
  have hdrop : strDrop (⟨("base/").data ++ (ds ++ r)⟩ : String) 5 = (⟨ds ++ r⟩ : String) := rfl
  rw [hdrop]
  have htake : takeDigits (⟨ds ++ r⟩ : String) = (⟨ds⟩ : String) :=
    congrArg String.mk (takeWhile_digits_append ds r hds hr)
  rw [htake]
  have hato : atooid (⟨ds⟩ : String) = digitsVal ds := by
    refine congrArg digitsVal ?_
    have htw := takeWhile_digits_append ds [] hds rfl
    rwa [List.append_nil] at htw
  rw [hato]

/-- Parse result for a copied path under `pg_tblspc/`: the tablespace OID is
the numeric value of the digit run after `pg_tblspc/` and the database OID is
the numeric value of the digit run after the tablespace version directory and
its slash. -/
theorem copydir_parse_tblspc (ss ds r : List Char)
    (hss : ∀ c ∈ ss, c.isDigit = true) (hds : ∀ c ∈ ds, c.isDigit = true)
    (hr : headDigit r = false) :
    ptrack_copydir_parse
        ⟨("pg_tblspc/").data ++
          (ss ++ '/' :: (TABLESPACE_VERSION_DIRECTORY.data ++ '/' :: (ds ++ r)))⟩ =
      (digitsVal ss, digitsVal ds) := by
  have hg :
      strStartsWith
        (⟨("pg_tblspc/").data ++
          (ss ++ '/' :: (TABLESPACE_VERSION_DIRECTORY.data ++ '/' :: (ds ++ r)))⟩ : String)
        ("global/") = false := rfl
  have hb :
      strStartsWith
        (⟨("pg_tblspc/").data ++
          (ss ++ '/' :: (TABLESPACE_VERSION_DIRECTORY.data ++ '/' :: (ds ++ r)))⟩ : String)
        ("base/") = false := rfl
  have ht :
      strStartsWith
        (⟨("pg_tblspc/").data ++
          (ss ++ '/' :: (TABLESPACE_VERSION_DIRECTORY.data ++ '/' :: (ds ++ r)))⟩ : String)
        ("pg_tblspc/") = true := rfl
  rw [ptrack_copydir_parse, if_neg (by rw [hg]; exact Bool.false_ne_true),
    if_neg (by rw [hb]; exact Bool.false_ne_true), if_pos ht]
  have hspcdrop :
      strDrop
        (⟨("pg_tblspc/").data ++
          (ss ++ '/' :: (TABLESPACE_VERSION_DIRECTORY.data ++ '/' :: (ds ++ r)))⟩ : String)
        10 =
      (⟨ss ++ '/' :: (TABLESPACE_VERSION_DIRECTORY.data ++ '/' :: (ds ++ r))⟩ : String) := rfl
  rw [hspcdrop]
  have hspctake :
      takeDigits
        (⟨ss ++ '/' :: (TABLESPACE_VERSION_DIRECTORY.data ++ '/' :: (ds ++ r))⟩ : String) =
      (⟨ss⟩ : String) :=
    congrArg String.mk (takeWhile_digits_append ss _ hss rfl)
  rw [hspctake]
  have hatoss : atooid (⟨ss⟩ : String) = digitsVal ss := by
    refine congrArg digitsVal ?_
    have htw := takeWhile_digits_append ss [] hss rfl
    rwa [List.append_nil] at htw
  rw [hatoss]
  have hpredata :
      (("pg_tblspc/").data ++
        (ss ++ '/' :: (TABLESPACE_VERSION_DIRECTORY.data ++ '/' :: (ds ++ r)))) =
      ((("pg_tblspc/").data ++ ss ++ ['/']) ++
        (TABLESPACE_VERSION_DIRECTORY.data ++ '/' :: (ds ++ r))) := by
    simp [List.append_assoc]
  have hstr :
      strstrPos
        (⟨("pg_tblspc/").data ++
          (ss ++ '/' :: (TABLESPACE_VERSION_DIRECTORY.data ++ '/' :: (ds ++ r)))⟩ : String)
        TABLESPACE_VERSION_DIRECTORY =
      some (("pg_tblspc/").data ++ ss ++ ['/']).length := by
    show strstrAux TABLESPACE_VERSION_DIRECTORY.data
        (("pg_tblspc/").data ++
          (ss ++ '/' :: (TABLESPACE_VERSION_DIRECTORY.data ++ '/' :: (ds ++ r)))) = _
    rw [hpredata]
    rw [show TABLESPACE_VERSION_DIRECTORY.data = 'P' :: ("G_13_202007201").data from rfl]
    rw [strstrAux_shift 'P' (("G_13_202007201").data)
      (("pg_tblspc/").data ++ ss ++ ['/'])
      (('P' :: ("G_13_202007201").data) ++ '/' :: (ds ++ r)) ?hpre]
    case hpre =>
      intro c hc
      rw [List.mem_append, List.mem_append] at hc
      rcases hc with (hc10 | hcss) | hcsl
      · exact (by decide :
          ∀ x ∈ ("pg_tblspc/").data, (('P' : Char) == x) = false) c hc10
      · exact digit_ne_upper_p c (hss c hcss)
      · exact (by decide :
          ∀ x ∈ ['/'], (('P' : Char) == x) = false) c hcsl
    rw [strstrAux_of_startsWith _ _ (listStartsWith_append _ _)]
    simp
  rw [hstr]
  have hdbdrop :
      strDrop
        (⟨("pg_tblspc/").data ++
          (ss ++ '/' :: (TABLESPACE_VERSION_DIRECTORY.data ++ '/' :: (ds ++ r)))⟩ : String)
        ((("pg_tblspc/").data ++ ss ++ ['/']).length +
          TABLESPACE_VERSION_DIRECTORY.length + 1) =
      (⟨ds ++ r⟩ : String) := by
    rw [strDrop]
    refine congrArg String.mk ?_
    show (("pg_tblspc/").data ++
        (ss ++ '/' :: (TABLESPACE_VERSION_DIRECTORY.data ++ '/' :: (ds ++ r)))).drop _ = _
    rw [hpredata]
    have hregroup :
        ((("pg_tblspc/").data ++ ss ++ ['/']) ++
          (TABLESPACE_VERSION_DIRECTORY.data ++ '/' :: (ds ++ r))) =
        ((("pg_tblspc/").data ++ ss ++ ['/']) ++ TABLESPACE_VERSION_DIRECTORY.data ++ ['/']) ++
          (ds ++ r) := by
      simp [List.append_assoc]
    rw [hregroup]
    refine List.drop_left' ?_
    have h1 : TABLESPACE_VERSION_DIRECTORY.data.length = 15 := rfl
    have h2 : TABLESPACE_VERSION_DIRECTORY.length = 15 := rfl
    have h3 : (("pg_tblspc/").data).length = 10 := rfl
    simp only [List.length_append, List.length_cons, List.length_nil, h1, h2, h3]
  rw [show (match some ((("pg_tblspc/").data ++ ss ++ ['/']).length) with
      | some i =>
        atooid (takeDigits (strDrop
          (⟨("pg_tblspc/").data ++
            (ss ++ '/' :: (TABLESPACE_VERSION_DIRECTORY.data ++ '/' :: (ds ++ r)))⟩ : String)
          (i + TABLESPACE_VERSION_DIRECTORY.length + 1)))
      | none => InvalidOid) =
      atooid (takeDigits (strDrop
        (⟨("pg_tblspc/").data ++
          (ss ++ '/' :: (TABLESPACE_VERSION_DIRECTORY.data ++ '/' :: (ds ++ r)))⟩ : String)
        ((("pg_tblspc/").data ++ ss ++ ['/']).length +
          TABLESPACE_VERSION_DIRECTORY.length + 1))) from rfl]
  rw [hdbdrop]
  have hdbtake : takeDigits (⟨ds ++ r⟩ : String) = (⟨ds⟩ : String) :=
    congrArg String.mk (takeWhile_digits_append ds r hds hr)
  rw [hdbtake]
  have hatods : atooid (⟨ds⟩ : String) = digitsVal ds := by
    refine congrArg digitsVal ?_
    have htw := takeWhile_digits_append ds [] hds rfl
    rwa [List.append_nil] at htw
  rw [hatods]

/-- Row-stream equation for a head file whose `stat` succeeds, with the start
block and `relsize` in their uniform `segno`-based form. -/
theorem query_rows_cons_ok (statOf : String → Option Nat) (entries : Nat → Nat)
    (h : BidHashFn) (lsn : Nat) (pfl : PtrackFileList_i)
    (rest : List PtrackFileList_i) (size : Nat)
    (hstat : statOf (ptrack_fullpath pfl) = some size) :
    ptrack_query_rows statOf entries h lsn (pfl :: rest) =
      (if (scanSegment entries h lsn pfl.relnode pfl.forknum (pfl.segno * RELSEG_SIZE)
            (pfl.segno * RELSEG_SIZE + size / BLCKSZ)).2 = [] then []
       else [(ptrack_fullpath pfl,
              (scanSegment entries h lsn pfl.relnode pfl.forknum (pfl.segno * RELSEG_SIZE)
                (pfl.segno * RELSEG_SIZE + size / BLCKSZ)).2)]) ++
        ptrack_query_rows statOf entries h lsn rest := by
  simp only [ptrack_query_rows, hstat]
  by_cases hs : pfl.segno > 0
  · simp only [if_pos hs]
  · have h0 : pfl.segno = 0 := by omega
    simp [h0]

/-- Claim C4: when the feature is off (the shared map does not exist), every
call to the changed-page-set query fails immediately with the explicit
"ptrack is disabled" error, before any enumeration or slot lookup and
independently of the directory trees, the stat oracle and the threshold, and
returns no rows at all. -/
theorem C4_disabled_query_errors (h : BidHashFn) (env : HostEnv) (fuel : Nat)
    (globalDir baseDir tblspcDir : List (String × FSNode))
    (statOf : String → Option Nat) (lsn : Nat) :
    ptrack_get_pagemapset none h env fuel globalDir baseDir tblspcDir statOf lsn =
      Except.error ("ptrack is disabled") := rfl

/-- Claim C7: the init-LSN query returns the atomically-read `init_lsn` of
the shared map when the feature is enabled, and returns the invalid-LSN
sentinel without raising an error when the map does not exist. -/
theorem C7_init_lsn (m : PtrackMap) :
    ptrack_init_lsn (some m) = Except.ok m.init_lsn ∧
    ptrack_init_lsn none = Except.ok InvalidXLogRecPtr :=
  ⟨rfl, rfl⟩

/-- Claim C10: `ptrack_filelist_getnext` reports exhaustion on the empty
list; whenever it yields a file the remaining list is strictly shorter (it
removed at least the head, possibly more after stat failures); whenever it
reports exhaustion it has emptied the list; and a complete query returns at
most one row per gathered file, hence finitely many rows. -/
theorem C10_termination (statOf : String → Option Nat) (l : List PtrackFileList_i)
    (info : PtScanCtxInfo) (entries : Nat → Nat) (h : BidHashFn) (lsn : Nat)
    (files : List PtrackFileList_i) :
    (ptrack_filelist_getnext statOf ([] : List PtrackFileList_i) = (none, [])) ∧
    ((ptrack_filelist_getnext statOf l).1 = some info →
      (ptrack_filelist_getnext statOf l).2.length < l.length) ∧
    ((ptrack_filelist_getnext statOf l).1 = none →
      (ptrack_filelist_getnext statOf l).2 = []) ∧
    ((ptrack_query_rows statOf entries h lsn files).length ≤ files.length) :=
  ⟨rfl, getnext_some_length statOf l info, getnext_none_nil statOf l,
    query_rows_length_le statOf entries h lsn files⟩

/-- Witness for C10 at a concrete one-element file list whose head stats
successfully. -/
theorem C10_termination_witness :
    (ptrack_filelist_getnext (fun _ => some 4)
      [(⟨⟨1663, 5, 777⟩, 0, 0, "base/5/777"⟩ : PtrackFileList_i)]).2.length <
      [(⟨⟨1663, 5, 777⟩, 0, 0, "base/5/777"⟩ : PtrackFileList_i)].length :=
  (C10_termination (fun _ => some 4)
    [(⟨⟨1663, 5, 777⟩, 0, 0, "base/5/777"⟩ : PtrackFileList_i)]
    ⟨"base/5/777", ⟨⟨1663, 5, 777⟩, 0, 0⟩, 0⟩ (fun _ => 0) (fun _ => 0) 0 []).2.1 rfl

/-- Claim C9: with threshold 0 (the invalid-LSN sentinel) the comparison
succeeds for every scanned block — also for never-marked slots holding the
sentinel 0 — so the bitmap of every file is exactly all scanned offsets, and
every gathered file whose stat succeeds (in particular every non-empty one)
is reported. -/
theorem C9_zero_threshold (entries : Nat → Nat) (h : BidHashFn) (rn : RelFileNode)
    (forknum start relsize : Nat) (statOf : String → Option Nat)
    (files : List PtrackFileList_i) (pfl : PtrackFileList_i) (size : Nat) :
    ((scanSegment entries h 0 rn forknum start relsize).2 =
      (scanSegment entries h 0 rn forknum start relsize).1.map
        (fun n => n % RELSEG_SIZE)) ∧
    (pfl ∈ files → statOf (ptrack_fullpath pfl) = some size →
      ptrack_fullpath pfl ∈ (ptrack_query_rows statOf entries h 0 files).map Prod.fst) :=
  ⟨scanSegmentAux_snd_zero_lsn entries h rn forknum (relsize + 1 - start) start,
    fun hmem hstat => query_rows_zero_lsn_mem statOf entries h files pfl size hmem hstat⟩

/-- Witness for C9: a concrete zero-size file is still reported when the
threshold is the sentinel 0. -/
theorem C9_zero_threshold_witness :
    ptrack_fullpath (⟨⟨1663, 5, 777⟩, 0, 0, "base/5/777"⟩ : PtrackFileList_i) ∈
      (ptrack_query_rows (fun _ => some 0) (fun _ => 0) (fun _ => 0) 0
        [(⟨⟨1663, 5, 777⟩, 0, 0, "base/5/777"⟩ : PtrackFileList_i)]).map Prod.fst :=
  (C9_zero_threshold (fun _ => 0) (fun _ => 0) ⟨1663, 5, 777⟩ 0 0 0 (fun _ => some 0)
    [(⟨⟨1663, 5, 777⟩, 0, 0, "base/5/777"⟩ : PtrackFileList_i)]
    ⟨⟨1663, 5, 777⟩, 0, 0, "base/5/777"⟩ 0).2 (by decide) rfl

/-- Claim C3: the query emits a (path, bitmap) row for a file if and only if
at least one bit was set during its scan: every emitted row has a non-empty
bitmap; a statable file whose scan set a bit contributes exactly its row; one
whose scan set no bit is passed over without emitting. -/
theorem C3_emit_iff_bit (statOf : String → Option Nat) (entries : Nat → Nat)
    (h : BidHashFn) (lsn : Nat) (files : List PtrackFileList_i)
    (pfl : PtrackFileList_i) (rest : List PtrackFileList_i) (size : Nat)
    (p : String) (bm : List Nat) :
    ((p, bm) ∈ ptrack_query_rows statOf entries h lsn files → bm ≠ []) ∧
    (statOf (ptrack_fullpath pfl) = some size →
      (scanSegment entries h lsn pfl.relnode pfl.forknum (pfl.segno * RELSEG_SIZE)
          (pfl.segno * RELSEG_SIZE + size / BLCKSZ)).2 ≠ [] →
      ptrack_query_rows statOf entries h lsn (pfl :: rest) =
        (ptrack_fullpath pfl,
          (scanSegment entries h lsn pfl.relnode pfl.forknum (pfl.segno * RELSEG_SIZE)
            (pfl.segno * RELSEG_SIZE + size / BLCKSZ)).2) ::
          ptrack_query_rows statOf entries h lsn rest) ∧
    (statOf (ptrack_fullpath pfl) = some size →
      (scanSegment entries h lsn pfl.relnode pfl.forknum (pfl.segno * RELSEG_SIZE)
          (pfl.segno * RELSEG_SIZE + size / BLCKSZ)).2 = [] →
      ptrack_query_rows statOf entries h lsn (pfl :: rest) =
        ptrack_query_rows statOf entries h lsn rest) := by
  refine ⟨query_rows_mem_ne_nil statOf entries h lsn files p bm, ?_, ?_⟩
  · intro hstat hne
    rw [query_rows_cons_ok statOf entries h lsn pfl rest size hstat, if_neg hne]
    rfl
  · intro hstat hnil
    rw [query_rows_cons_ok statOf entries h lsn pfl rest size hstat, if_pos hnil]
    rfl

/-- Witness for C3: a concrete one-block file whose only slot carries LSN 10
is emitted as a row with its non-empty bitmap. -/
theorem C3_emit_iff_bit_witness :
    ptrack_query_rows (fun _ => some 8192) (fun _ => 10) (fun _ => 0) 0
        [(⟨⟨1663, 5, 777⟩, 0, 0, "base/5/777"⟩ : PtrackFileList_i)] =
      (ptrack_fullpath (⟨⟨1663, 5, 777⟩, 0, 0, "base/5/777"⟩ : PtrackFileList_i),
        (scanSegment (fun _ => 10) (fun _ => 0) 0 ⟨1663, 5, 777⟩ 0 (0 * RELSEG_SIZE)
          (0 * RELSEG_SIZE + 8192 / BLCKSZ)).2) ::
        ptrack_query_rows (fun _ => some 8192) (fun _ => 10) (fun _ => 0) 0 [] :=
  (C3_emit_iff_bit (fun _ => some 8192) (fun _ => 10) (fun _ => 0) 0 []
    ⟨⟨1663, 5, 777⟩, 0, 0, "base/5/777"⟩ [] 8192 ("x") []).2.1 rfl (by decide)

/-- Claim C1 (amended): a bit is set in a file's bitmap exactly when some
scanned block with that offset modulo `RELSEG_SIZE` has a hashed-slot LSN at
least the threshold; in the forward direction every scanned block whose slot
passes the test gets its bit set, and when the scan covers at most
`RELSEG_SIZE` blocks (as for every segment of fewer than `RELSEG_SIZE`
on-disk blocks) the per-block "if and only if" of the original claim is
restored. -/
theorem C1_bit_iff_slot (entries : Nat → Nat) (h : BidHashFn) (lsn : Nat)
    (rn : RelFileNode) (forknum start relsize : Nat) :
    (∀ o, o ∈ (scanSegment entries h lsn rn forknum start relsize).2 ↔
      ∃ n, start ≤ n ∧ n ≤ relsize ∧ n % RELSEG_SIZE = o ∧
        lsn ≤ entries (h ⟨rn, forknum, n⟩)) ∧
    (∀ n, start ≤ n → n ≤ relsize → relsize + 1 - start ≤ RELSEG_SIZE →
      ((n % RELSEG_SIZE) ∈ (scanSegment entries h lsn rn forknum start relsize).2 ↔
        lsn ≤ entries (h ⟨rn, forknum, n⟩))) := by
  constructor
  · intro o
    exact scanSegment_mem_snd entries h lsn rn forknum start relsize o
  · intro n hn1 hn2 hwidth
    constructor
    · intro hmem
      rw [scanSegment_mem_snd] at hmem
      obtain ⟨m, h1, h2, h3, h4⟩ := hmem
      have hmn : m = n := by
        rw [show RELSEG_SIZE = 131072 from rfl] at h3 hwidth
        omega
      rwa [hmn] at h4
    · intro hcond
      rw [scanSegment_mem_snd]
      exact ⟨n, hn1, hn2, rfl, hcond⟩

/-- Witness for C1 at a small concrete scan: block 1 of a three-block scan
with every slot holding LSN 10 has its bit set for threshold 1. -/
theorem C1_bit_iff_slot_witness :
    (1 % RELSEG_SIZE) ∈
      (scanSegment (fun _ => 10) (fun b => b.blocknum) 1 ⟨1663, 5, 77⟩ 0 0 2).2 :=
  ((C1_bit_iff_slot (fun _ => 10) (fun b => b.blocknum) 1 ⟨1663, 5, 77⟩ 0 0 2).2 1
    (by decide) (by decide) (by decide)).mpr (by decide)

/-- Counterexample to claim C1 as stated: scanning a full first segment
(`relsize = RELSEG_SIZE`, as computed for a segment of exactly `RELSEG_SIZE`
on-disk blocks), block 0 is scanned and its hashed slot holds 0, below the
threshold 3, yet bit `0 % RELSEG_SIZE` is set in the file's bitmap — the loop
also consults block `RELSEG_SIZE`, whose offset modulo `RELSEG_SIZE` is also
0 and whose slot holds 5 ≥ 3.  The "only if" direction of the claimed
per-block equivalence is false at this input. -/
theorem C1_counterexample :
    0 ∈ (scanSegment C1cexEntries C1cexHash 3 ⟨1663, 5, 77⟩ 0 0 RELSEG_SIZE).1 ∧
    ¬ 3 ≤ C1cexEntries (C1cexHash ⟨⟨1663, 5, 77⟩, 0, 0⟩) ∧
    (0 % RELSEG_SIZE) ∈
      (scanSegment C1cexEntries C1cexHash 3 ⟨1663, 5, 77⟩ 0 0 RELSEG_SIZE).2 := by
  refine ⟨?_, by decide, ?_⟩
  · rw [scanSegment_mem_fst]
    exact ⟨le_refl 0, Nat.zero_le _⟩
  · rw [scanSegment_mem_snd]
    refine ⟨RELSEG_SIZE, Nat.zero_le _, le_refl _, ?_, ?_⟩
    · rw [Nat.mod_self, Nat.zero_mod]
    · simp [C1cexEntries, C1cexHash]

/-- Claim C2 (amended): for a file list head with segment number `s` whose
stat reports `b = size / BLCKSZ` blocks on disk, the iterator produces the
start block `s * RELSEG_SIZE` and `relsize = s * RELSEG_SIZE + b` (for both
the `s > 0` and `s = 0` branches); the scan then consults exactly the block
numbers from `s * RELSEG_SIZE` up to AND INCLUDING `s * RELSEG_SIZE + b` (one
block past the original claim's exclusive bound), and every bit it records is
the offset of a consulted block modulo `RELSEG_SIZE`. -/
theorem C2_scanned_range (statOf : String → Option Nat) (pfl : PtrackFileList_i)
    (rest : List PtrackFileList_i) (size : Nat) (entries : Nat → Nat)
    (h : BidHashFn) (lsn n : Nat)
    (hstat : statOf (ptrack_fullpath pfl) = some size) :
    ptrack_filelist_getnext statOf (pfl :: rest) =
      (some ⟨ptrack_fullpath pfl,
             ⟨pfl.relnode, pfl.forknum, pfl.segno * RELSEG_SIZE⟩,
             pfl.segno * RELSEG_SIZE + size / BLCKSZ⟩, rest) ∧
    (n ∈ (scanSegment entries h lsn pfl.relnode pfl.forknum (pfl.segno * RELSEG_SIZE)
          (pfl.segno * RELSEG_SIZE + size / BLCKSZ)).1 ↔
      pfl.segno * RELSEG_SIZE ≤ n ∧ n ≤ pfl.segno * RELSEG_SIZE + size / BLCKSZ) ∧
    (scanSegment entries h lsn pfl.relnode pfl.forknum (pfl.segno * RELSEG_SIZE)
        (pfl.segno * RELSEG_SIZE + size / BLCKSZ)).2 ⊆
      (scanSegment entries h lsn pfl.relnode pfl.forknum (pfl.segno * RELSEG_SIZE)
        (pfl.segno * RELSEG_SIZE + size / BLCKSZ)).1.map (fun m => m % RELSEG_SIZE) := by
  refine ⟨getnext_cons_ok statOf pfl rest size hstat,
    scanSegment_mem_fst entries h lsn pfl.relnode pfl.forknum _ _ n, ?_⟩
  intro o ho
  rw [scanSegment_mem_snd] at ho
  obtain ⟨m, h1, h2, h3, h4⟩ := ho
  rw [List.mem_map]
  refine ⟨m, ?_, h3⟩
  rw [scanSegment_mem_fst]
  exact ⟨h1, h2⟩

/-- Witness for C2 at a concrete second-segment file of two on-disk blocks. -/
theorem C2_scanned_range_witness :
    ptrack_filelist_getnext (fun _ => some 16384)
        [(⟨⟨1663, 5, 777⟩, 0, 1, "base/5/777"⟩ : PtrackFileList_i)] =
      (some ⟨ptrack_fullpath (⟨⟨1663, 5, 777⟩, 0, 1, "base/5/777"⟩ : PtrackFileList_i),
             ⟨⟨1663, 5, 777⟩, 0, 1 * RELSEG_SIZE⟩, 1 * RELSEG_SIZE + 16384 / BLCKSZ⟩, []) ∧
    ((131073 : Nat) ∈ (scanSegment (fun _ => 0) (fun _ => 0) 0 ⟨1663, 5, 777⟩ 0
          (1 * RELSEG_SIZE) (1 * RELSEG_SIZE + 16384 / BLCKSZ)).1 ↔
      1 * RELSEG_SIZE ≤ 131073 ∧ 131073 ≤ 1 * RELSEG_SIZE + 16384 / BLCKSZ) ∧
    (scanSegment (fun _ => 0) (fun _ => 0) 0 ⟨1663, 5, 777⟩ 0 (1 * RELSEG_SIZE)
        (1 * RELSEG_SIZE + 16384 / BLCKSZ)).2 ⊆
      (scanSegment (fun _ => 0) (fun _ => 0) 0 ⟨1663, 5, 777⟩ 0 (1 * RELSEG_SIZE)
        (1 * RELSEG_SIZE + 16384 / BLCKSZ)).1.map (fun m => m % RELSEG_SIZE) :=
  C2_scanned_range (fun _ => some 16384) ⟨⟨1663, 5, 777⟩, 0, 1, "base/5/777"⟩ [] 16384
    (fun _ => 0) (fun _ => 0) 0 131073 rfl

/-- Counterexample to claim C2 as stated: a first-segment file whose stat
size is 0 has `b = 0` blocks on disk, so the claim's range — block numbers
`n` with `s * RELSEG_SIZE ≤ n < s * RELSEG_SIZE + b`, here empty — contains
no block, yet the loop still consults block 0, because its guard is
`blocknum > relsize` rather than `>=`. -/
theorem C2_counterexample :
    ptrack_filelist_getnext (fun _ => some 0)
        [(⟨⟨1663, 5, 777⟩, 0, 0, "base/5/777"⟩ : PtrackFileList_i)] =
      (some ⟨"base/5/777", ⟨⟨1663, 5, 777⟩, 0, 0⟩, 0⟩, []) ∧
    0 ∈ (scanSegment (fun _ => 0) (fun _ => 0) 5 ⟨1663, 5, 777⟩ 0 0 0).1 ∧
    ¬ (0 * RELSEG_SIZE ≤ 0 ∧ 0 < 0 * RELSEG_SIZE + 0 / BLCKSZ) := by
  refine ⟨rfl, ?_, by decide⟩
  rw [scanSegment_mem_fst]
  exact ⟨le_refl 0, le_refl 0⟩

/-- Claim C5: during enumeration, `.`, `..` and temporary relation names are
skipped; an entry whose `lstat` fails is skipped (after logging) and the walk
continues; a regular file whose name does not parse as a relation file is
skipped; and during scanning a file whose `stat` fails is skipped (after a
warning) while the iterator continues with the next file — no per-file
failure aborts the walk or the query. -/
theorem C5_skip_rules (env : HostEnv) (fuel spcOid dbOid : Nat) (name : String)
    (node : FSNode) (rest : List (String × FSNode)) (sz : Nat)
    (statOf : String → Option Nat) (pfl : PtrackFileList_i)
    (frest : List PtrackFileList_i) :
    (name = "." ∨ name = ".." ∨ env.looks_like_temp_rel_name name = true →
      ptrack_gather_filelist env (fuel + 1) spcOid dbOid ((name, node) :: rest) =
        ptrack_gather_filelist env (fuel + 1) spcOid dbOid rest) ∧
    (ptrack_gather_filelist env (fuel + 1) spcOid dbOid ((name, FSNode.bad) :: rest) =
      ptrack_gather_filelist env (fuel + 1) spcOid dbOid rest) ∧
    (env.parse_filename_for_nontemp_relation name = none →
      ptrack_gather_filelist env (fuel + 1) spcOid dbOid ((name, FSNode.reg sz) :: rest) =
        ptrack_gather_filelist env (fuel + 1) spcOid dbOid rest) ∧
    (statOf (ptrack_fullpath pfl) = none →
      ptrack_filelist_getnext statOf (pfl :: frest) =
        ptrack_filelist_getnext statOf frest) := by
  refine ⟨?_, ?_, ?_, fun hstat => getnext_skip statOf pfl frest hstat⟩
  · intro hskip
    rw [ptrack_gather_filelist_cons, if_pos hskip, List.nil_append]
  · rw [ptrack_gather_filelist_cons]
    by_cases hskip : name = "." ∨ name = ".." ∨ env.looks_like_temp_rel_name name = true
    · rw [if_pos hskip, List.nil_append]
    · rw [if_neg hskip, List.nil_append]
  · intro hparse
    rw [ptrack_gather_filelist_cons]
    by_cases hskip : name = "." ∨ name = ".." ∨ env.looks_like_temp_rel_name name = true
    · rw [if_pos hskip, List.nil_append]
    · rw [if_neg hskip]
      show ptrack_gather_regfile env spcOid dbOid name ++ _ = _
      rw [ptrack_gather_regfile]
      by_cases hguard : dbOid ≠ InvalidOid ∨ spcOid = GLOBALTABLESPACE_OID
      · rw [if_pos hguard, hparse, List.nil_append]
      · rw [if_neg hguard, List.nil_append]

/-- Witness for C5: a concrete head file whose stat fails is skipped and the
iterator moves on. -/
theorem C5_skip_rules_witness :
    ptrack_filelist_getnext (fun _ => none)
        [(⟨⟨1663, 5, 777⟩, 0, 0, "base/5/777"⟩ : PtrackFileList_i)] =
      ptrack_filelist_getnext (fun _ => none) [] :=
  (C5_skip_rules ⟨fun _ => false, fun _ => none, fun _ _ _ _ => ("p")⟩ 0 0 0 (".")
    FSNode.bad [] 0 (fun _ => none) ⟨⟨1663, 5, 777⟩, 0, 0, "base/5/777"⟩ []).2.2.2 rfl

/-- Claim C6 (amended): every gathered file was added inside a database
directory or in the global tablespace; a subdirectory contributes nothing
unless its name with the first character removed is all digits while no
database is set, or it is the tablespace version directory inside a
tablespace; a symlink contributes nothing unless its name with the first
character removed is all digits.  (The first character of such names is
never inspected, so the descent is NOT restricted to numerically-named
entries — see the counterexample.) -/
theorem C6_enumeration (env : HostEnv) (fuel spcOid dbOid : Nat)
    (children cs2 : List (String × FSNode)) (name : String) (x : PtrackFileList_i) :
    (x ∈ ptrack_gather_filelist env fuel spcOid dbOid children →
      x.relnode.dbNode ≠ InvalidOid ∨ x.relnode.spcNode = GLOBALTABLESPACE_OID) ∧
    ((digitTail name = false ∨ dbOid ≠ InvalidOid) →
      (spcOid = InvalidOid ∨ name ≠ TABLESPACE_VERSION_DIRECTORY) →
      ptrack_gather_filelist env (fuel + 1) spcOid dbOid
          ((name, FSNode.dir cs2) :: children) =
        ptrack_gather_filelist env (fuel + 1) spcOid dbOid children) ∧
    (digitTail name = false →
      ptrack_gather_filelist env (fuel + 1) spcOid dbOid
          ((name, FSNode.link cs2) :: children) =
        ptrack_gather_filelist env (fuel + 1) spcOid dbOid children) := by
  refine ⟨fun hmem => ptrack_gather_filelist_inv env fuel spcOid dbOid children x hmem,
    ?_, ?_⟩
  · intro hnodig hnover
    rw [ptrack_gather_filelist_cons]
    by_cases hskip : name = "." ∨ name = ".." ∨ env.looks_like_temp_rel_name name = true
    · rw [if_pos hskip, List.nil_append]
    · rw [if_neg hskip]
      have hc1 : ¬ (digitTail name = true ∧ dbOid = InvalidOid) := by
        rcases hnodig with hd | hdb
        · intro hc; rw [hd] at hc; exact Bool.false_ne_true hc.1
        · intro hc; exact hdb hc.2
      have hc2 : ¬ (spcOid ≠ InvalidOid ∧ name = TABLESPACE_VERSION_DIRECTORY) := by
        rcases hnover with hs | hn
        · intro hc; exact hc.1 hs
        · intro hc; exact hn hc.2
      show (if digitTail name = true ∧ dbOid = InvalidOid then _ else _) ++ _ = _
      rw [if_neg hc1, if_neg hc2, List.nil_append]
  · intro hnodig
    rw [ptrack_gather_filelist_cons]
    by_cases hskip : name = "." ∨ name = ".." ∨ env.looks_like_temp_rel_name name = true
    · rw [if_pos hskip, List.nil_append]
    · rw [if_neg hskip]
      show (if digitTail name = true then _ else _) ++ _ = _
      rw [if_neg (by rw [hnodig]; exact Bool.false_ne_true), List.nil_append]

/-- Witness for C6: a directory named `xy` (its tail `y` is not a digit)
inside a database-less walk contributes nothing. -/
theorem C6_enumeration_witness :
    ptrack_gather_filelist ⟨fun _ => false, fun _ => none, fun _ _ _ _ => ("p")⟩ 1
        InvalidOid InvalidOid [("xy", FSNode.dir [("3", FSNode.reg 8192)])] =
      ptrack_gather_filelist ⟨fun _ => false, fun _ => none, fun _ _ _ _ => ("p")⟩ 1
        InvalidOid InvalidOid [] :=
  (C6_enumeration ⟨fun _ => false, fun _ => none, fun _ _ _ _ => ("p")⟩ 0
    InvalidOid InvalidOid [] [("3", FSNode.reg 8192)] ("xy")
    ⟨⟨1663, 5, 777⟩, 0, 0, "base/5/777"⟩).2.1 (Or.inl (by decide)) (Or.inl rfl)

/-- Counterexample to claim C6 as stated: no entry of the base listing is
numerically named, yet the walk descends into `x1` (only the characters
after the first are checked) and gathers the file `base/x1/2/3` as relation
3 of database 2 — the enumeration is not restricted to numerically-named
subdirectories. -/
theorem C6_counterexample :
    (∀ p ∈ C6cexBase, isNumericName p.1 = false) ∧
    ptrack_gather_filelist C6cexEnv 3 InvalidOid InvalidOid C6cexBase =
      [⟨⟨DEFAULTTABLESPACE_OID, 2, 3⟩, MAIN_FORKNUM, 0, ("2/3")⟩] := by
  constructor
  · decide
  · decide

/-- Claim C8: the write hooks invoke the single-page mark on exactly the
given page identity and then chain to a previously installed hook; the
checkpoint hook invokes the checkpoint flush and chains; and the
directory-copied hook parses the tablespace and database OIDs out of a path
beginning `global/`, `base/` or `pg_tblspc/` (for the latter two, the OIDs
are the numeric values of the digit runs following the prefix and following
the tablespace version directory) and invokes the tree walk on that path
with that scope before chaining. -/
theorem C8_hooks_delegate (prev : Bool) (rnode : RelFileNodeBackend)
    (forknum blocknum : Nat) (r ds ss : List Char)
    (hds : ∀ c ∈ ds, c.isDigit = true) (hss : ∀ c ∈ ss, c.isDigit = true)
    (hr : headDigit r = false) :
    (ptrack_mdwrite_hook prev rnode forknum blocknum =
      HostCall.markBlock rnode forknum blocknum ::
        (if prev then [HostCall.prevMdwrite rnode forknum blocknum] else [])) ∧
    (ptrack_mdextend_hook prev rnode forknum blocknum =
      HostCall.markBlock rnode forknum blocknum ::
        (if prev then [HostCall.prevMdextend rnode forknum blocknum] else [])) ∧
    (ptrack_ProcessSyncRequests_hook prev =
      HostCall.checkpoint :: (if prev then [HostCall.prevSync] else [])) ∧
    (ptrack_copydir_hook prev (⟨("global/").data ++ r⟩ : String) =
      HostCall.walkdir (⟨("global/").data ++ r⟩ : String) GLOBALTABLESPACE_OID InvalidOid ::
        (if prev then [HostCall.prevCopydir (⟨("global/").data ++ r⟩ : String)] else [])) ∧
    (ptrack_copydir_hook prev (⟨("base/").data ++ (ds ++ r)⟩ : String) =
      HostCall.walkdir (⟨("base/").data ++ (ds ++ r)⟩ : String)
          DEFAULTTABLESPACE_OID (digitsVal ds) ::
        (if prev then [HostCall.prevCopydir (⟨("base/").data ++ (ds ++ r)⟩ : String)]
         else [])) ∧
    (ptrack_copydir_hook prev
        (⟨("pg_tblspc/").data ++
          (ss ++ '/' :: (TABLESPACE_VERSION_DIRECTORY.data ++ '/' :: (ds ++ r)))⟩ : String) =
      HostCall.walkdir
          (⟨("pg_tblspc/").data ++
            (ss ++ '/' :: (TABLESPACE_VERSION_DIRECTORY.data ++ '/' :: (ds ++ r)))⟩ : String)
          (digitsVal ss) (digitsVal ds) ::
        (if prev then
          [HostCall.prevCopydir
            (⟨("pg_tblspc/").data ++
              (ss ++ '/' :: (TABLESPACE_VERSION_DIRECTORY.data ++ '/' :: (ds ++ r)))⟩ : String)]
         else [])) := by
  refine ⟨rfl, rfl, rfl, ?_, ?_, ?_⟩
  · simp only [ptrack_copydir_hook, copydir_parse_global r]
  · simp only [ptrack_copydir_hook, copydir_parse_base ds r hds hr]
  · simp only [ptrack_copydir_hook, copydir_parse_tblspc ss ds r hss hds hr]

/-- Witness for C8 at a concrete copied tablespace path
`pg_tblspc/7/<version-dir>/42/x`: the walk is invoked with tablespace 7 and
database 42, then the previous hook is chained. -/
theorem C8_hooks_delegate_witness :
    ptrack_copydir_hook true
        (⟨("pg_tblspc/").data ++
          (['7'] ++ '/' ::
            (TABLESPACE_VERSION_DIRECTORY.data ++ '/' :: (['4', '2'] ++ ['/', 'x'])))⟩ :
          String) =
      HostCall.walkdir
          (⟨("pg_tblspc/").data ++
            (['7'] ++ '/' ::
              (TABLESPACE_VERSION_DIRECTORY.data ++ '/' :: (['4', '2'] ++ ['/', 'x'])))⟩ :
            String)
          (digitsVal ['7']) (digitsVal ['4', '2']) ::
        [HostCall.prevCopydir
          (⟨("pg_tblspc/").data ++
            (['7'] ++ '/' ::
              (TABLESPACE_VERSION_DIRECTORY.data ++ '/' :: (['4', '2'] ++ ['/', 'x'])))⟩ :
            String)] :=
  (C8_hooks_delegate true ⟨⟨1, 2, 3⟩, 0⟩ 0 9 (['/', 'x']) (['4', '2']) (['7'])
    (by decide) (by decide) (by decide)).2.2.2.2.2

end Ptrack
